import Mathlib

/-!
Verification of the ancillary-data core of the `uds` crate (`src/ancillary.rs`),
shallowly embedded for the Linux x86-64 (gnu) target: `size_t`/`usize` are
64-bit, `cmsghdr` is 16 bytes with 8-byte alignment, `RawFd` (`c_int`) is
4 bytes, and `ControlLen = usize`.
-/

namespace Uds

/-! ## Platform constants (Linux x86-64, gnu) -/

/-- Alignment of `cmsghdr` on Linux x86-64: 8 bytes (`sizeof(size_t)`). -/
def alignCmsghdr : Nat := 8

/-- Size of `cmsghdr` on Linux x86-64: a `size_t` length plus two `c_int`s. -/
def sizeofCmsghdr : Nat := 16

/-- Size of `RawFd` (`c_int`). -/
def sizeofRawFd : Nat := 4

/-- Size of a fat reference `&&[RawFd]` points at, i.e. `size_of::<&[RawFd]>()`:
a pointer plus a length, 16 bytes on a 64-bit target. -/
def sizeofSliceRef : Nat := 16

/-- Size of the raw credential record. Modelled from the spec: the
platform-native credential structure carries process id, user id and group id,
three 4-byte fields (the `credentials` module is not part of the sources given;
only its use in `ancillary.rs` is). -/
def sizeofUcred : Nat := 12

/-- Maximum value of `ControlLen`, which is `usize` on linux-gnu. -/
def ControlLenMax : Nat := 2 ^ 64 - 1

def MSG_NOSIGNAL : Nat := 0x4000
def MSG_CMSG_CLOEXEC : Nat := 0x40000000
def MSG_TRUNC : Nat := 0x20
def MSG_CTRUNC : Nat := 0x8
def SOL_SOCKET : Int := 1
def SCM_RIGHTS : Int := 1
def SCM_CREDENTIALS : Int := 2

/-- Glibc `CMSG_ALIGN`: round up to a multiple of `sizeof(size_t)` = 8. -/
def CMSG_ALIGN (n : Nat) : Nat := (n + alignCmsghdr - 1) / alignCmsghdr * alignCmsghdr

/-- Glibc `CMSG_LEN(n)`: header (aligned) plus `n` payload bytes. -/
def CMSG_LEN (n : Nat) : Nat := CMSG_ALIGN sizeofCmsghdr + n

/-- Glibc `CMSG_SPACE(n)`: header plus payload, both rounded to alignment. -/
def CMSG_SPACE (n : Nat) : Nat := CMSG_ALIGN sizeofCmsghdr + CMSG_ALIGN n

/-! ## Send path (`send_ancillary`) -/

/-- Input-validation errors `send_ancillary` can return before the syscall. -/
inductive SendError where
  | tooManyByteSlices
  | tooManyFileDescriptors
deriving DecidableEq, Repr

/-- Description of the `sendmsg` call `send_ancillary` issues when validation
passes: the control-buffer capacity it computed, the flags passed to the
syscall, and the control blocks written into the buffer, each as
(byte offset of its header, its declared `cmsg_len`). -/
structure SendCall where
  neededCapacity : Nat
  passFlags : Nat
  credsBlock : Option (Nat × Nat)
  fdsBlock : Option (Nat × Nat)
deriving DecidableEq, Repr

/-- The capacity computation and block layout of `send_ancillary`
(src/ancillary.rs lines 60-111), for `hasCreds` an optional outgoing
credentials record and `numFds` file descriptors:
  * capacity adds `CMSG_LEN(size_of_val(&creds))` = `CMSG_LEN 12` for the
    credentials and, when `numFds > 0`, `CMSG_LEN(size_of_val(&fds))` where
    `&fds : &&[RawFd]`, so the operand is the 16-byte slice reference itself;
  * more than `0xff_ff_ff` descriptors is rejected before anything is encoded
    or sent;
  * the credentials block is written first at offset 0 with
    `cmsg_len = CMSG_LEN 12`; `CMSG_NXTHDR` then advances by
    `CMSG_ALIGN(cmsg_len)`; the descriptor block's declared length is
    `CMSG_LEN(size_of_val(fds))` = `CMSG_LEN (4 * numFds)`;
  * the syscall receives `flags | MSG_NOSIGNAL`. -/
def send_ancillary (hasCreds : Bool) (numFds : Nat) (flags : Nat) :
    Except SendError SendCall :=
  let capCreds := if hasCreds then CMSG_LEN sizeofUcred else 0
  let credsB : Option (Nat × Nat) :=
    if hasCreds then some (0, CMSG_LEN sizeofUcred) else none
  if numFds > 0 then
    if numFds > 0xffffff then
      Except.error SendError.tooManyFileDescriptors
    else
      let fdsOffset := if hasCreds then CMSG_ALIGN (CMSG_LEN sizeofUcred) else 0
      Except.ok
        { neededCapacity := capCreds + CMSG_LEN sizeofSliceRef
          passFlags := flags ||| MSG_NOSIGNAL
          credsBlock := credsB
          fdsBlock := some (fdsOffset, CMSG_LEN (sizeofRawFd * numFds)) }
  else
    Except.ok
      { neededCapacity := capCreds
        passFlags := flags ||| MSG_NOSIGNAL
        credsBlock := credsB
        fdsBlock := none }

/-- End (one past the last byte) of an encoded block, 0 when absent. -/
def blockEnd : Option (Nat × Nat) → Nat
  | none => 0
  | some (off, len) => off + len

/-- One past the last byte `send_ancillary` writes into its control buffer. -/
def SendCall.writeEnd (c : SendCall) : Nat :=
  max (blockEnd c.credsBlock) (blockEnd c.fdsBlock)

/-- Capacity the encoded blocks actually require, as the spec states it:
`CMSG_SPACE` for every block followed by another block (padding between
consecutive blocks) and `CMSG_LEN` for the final block. -/
def specRequiredCapacity (hasCreds : Bool) (numFds : Nat) : Nat :=
  if hasCreds then
    if numFds > 0 then CMSG_SPACE sizeofUcred + CMSG_LEN (sizeofRawFd * numFds)
    else CMSG_LEN sizeofUcred
  else
    if numFds > 0 then CMSG_LEN (sizeofRawFd * numFds) else 0

/-! ## Ancillary buffer (`AncillaryBuf`) -/

def MAX_STACK_CAPACITY : Nat := 256

def MAX_CAPACITY : Nat := ControlLenMax

/-- Model of `AncillaryBuf`: the requested capacity and, when the heap path
was taken, the `(size, align)` layout of the allocation made at construction
(`none` models the null pointer of the stack-backed case). -/
structure AncillaryBuf where
  capacity : Nat
  heapLayout : Option (Nat × Nat)
deriving DecidableEq, Repr

/-- Model of `AncillaryBuf::with_capacity` (src/ancillary.rs lines 150-167).
The first match arm `0..=MAX_STACK_CAPACITY` leaves the pointer null, the
second allocates `Layout::from_size_align(bytes, align_of::<cmsghdr>())`, and
capacities above `MAX_CAPACITY` panic, modelled as `none`. -/
def with_capacity (bytes : Nat) : Option AncillaryBuf :=
  if bytes ≤ MAX_STACK_CAPACITY then some ⟨bytes, none⟩
  else if bytes ≤ MAX_CAPACITY then some ⟨bytes, some (bytes, alignCmsghdr)⟩
  else none

/-- Length of the slice `Deref for AncillaryBuf` produces: both the
`on_stack.get(..capacity)` arm and the raw-parts arm give `capacity` bytes. -/
def AncillaryBuf.derefLen (b : AncillaryBuf) : Nat := b.capacity

/-- Whether `Deref` resolves to the embedded array:
`self.on_stack.get(..self.capacity)` succeeds exactly when
`capacity ≤ MAX_STACK_CAPACITY`. -/
def AncillaryBuf.derefUsesStack (b : AncillaryBuf) : Bool :=
  b.capacity ≤ MAX_STACK_CAPACITY

/-- The deallocation `Drop for AncillaryBuf` performs (src/ancillary.rs lines
134-146): the layout freed when `capacity > MAX_STACK_CAPACITY`, else none. -/
def AncillaryBuf.dropDealloc (b : AncillaryBuf) : Option (Nat × Nat) :=
  if b.capacity > MAX_STACK_CAPACITY then some (b.capacity, alignCmsghdr)
  else none

/-! ## Receive path (`recv_ancillary`) -/

/-- Input-validation errors `recv_ancillary` can return before the syscall. -/
inductive RecvError where
  | tooManyContentBuffers
  | bufferNotAligned
  | bufferTooBig
deriving DecidableEq, Repr

/-- Description of the `recvmsg` call `recv_ancillary` issues when validation
passes: whether `msg_control` stayed null, the `msg_controllen` value, and the
flags passed to the syscall. -/
structure RecvCall where
  controlIsNull : Bool
  controlLen : Nat
  passFlags : Nat
deriving DecidableEq, Repr

/-- The validation and syscall setup of `recv_ancillary` (src/ancillary.rs
lines 355-369), for an ancillary buffer starting at byte address `bufAddr`
with length `bufLen`: only when the buffer is nonempty does it check the
address against `align_of::<cmsghdr>()` and the length against
`ControlLen::max_value()`; otherwise `msg_control` stays null and
`msg_controllen` stays 0. The syscall receives
`flags | MSG_NOSIGNAL | MSG_CMSG_CLOEXEC`. -/
def recv_ancillary (bufAddr bufLen : Nat) (flags : Nat) :
    Except RecvError RecvCall :=
  if bufLen > 0 then
    if bufAddr % alignCmsghdr ≠ 0 then Except.error RecvError.bufferNotAligned
    else if bufLen > ControlLenMax then Except.error RecvError.bufferTooBig
    else Except.ok ⟨false, bufLen, flags ||| MSG_NOSIGNAL ||| MSG_CMSG_CLOEXEC⟩
  else Except.ok ⟨true, 0, flags ||| MSG_NOSIGNAL ||| MSG_CMSG_CLOEXEC⟩

/-- Whether an `Except` is an error. -/
def isErr {ε α : Type} : Except ε α → Bool
  | Except.error _ => true
  | Except.ok _ => false

/-! ## Control-block decoder (`Ancillary` iterator) -/

/-- One control block of a kernel-populated control buffer: the header fields
and the raw bytes of its data region (payload plus trailing padding). -/
structure CMsg where
  cmsg_len : Nat
  cmsg_level : Int
  cmsg_type : Int
  payload : List Nat
deriving DecidableEq, Repr

/-- Credentials of the sending process. Modelled from the spec: the decoded
record normalizes the platform credential structure to process id, user id
and group id (the `credentials` module is not part of the sources given). -/
structure ReceivedCredentials where
  pid : Int
  uid : Int
  gid : Int
deriving DecidableEq, Repr

/-- A 4-byte little-endian group of buffer bytes read as one `RawFd`
(`c_int`, two's complement). -/
def decodeFd (b0 b1 b2 b3 : Nat) : Int :=
  let u := b0 + 256 * b1 + 65536 * b2 + 16777216 * b3
  if u < 2 ^ 31 then (u : Int) else (u : Int) - 2 ^ 32

/-- The `n` `RawFd` values `slice::from_raw_parts(first_fd, n)` exposes,
read from the block's data region. -/
def decodeFds : Nat → List Nat → List Int
  | 0, _ => []
  | n + 1, b0 :: b1 :: b2 :: b3 :: rest => decodeFd b0 b1 b2 b3 :: decodeFds n rest
  | _ + 1, _ => []

/-- Credential record read from the start of a block's data region. -/
def decodeCreds (payload : List Nat) : ReceivedCredentials :=
  ⟨decodeFd (payload.getD 0 0) (payload.getD 1 0) (payload.getD 2 0) (payload.getD 3 0),
   decodeFd (payload.getD 4 0) (payload.getD 5 0) (payload.getD 6 0) (payload.getD 7 0),
   decodeFd (payload.getD 8 0) (payload.getD 9 0) (payload.getD 10 0) (payload.getD 11 0)⟩

/-- One ancillary message produced by the `Ancillary` iterator. -/
inductive AncillaryItem where
  | Fds (fds : List Int)
  | Credentials (creds : ReceivedCredentials)
  | Unsupported
deriving DecidableEq, Repr

/-- Decoding of one control block by `Ancillary::next` (src/ancillary.rs lines
283-300): `payload_bytes = cmsg_len - CMSG_LEN(0)`; a `(SOL_SOCKET,
SCM_RIGHTS)` block yields `payload_bytes / size_of::<RawFd>()` descriptors
viewed in place in the block's data region; a `(SOL_SOCKET, SCM_CREDENTIALS)`
block yields the decoded credentials; any other level/type pair yields
`Unsupported` with the payload uninterpreted. -/
def decodeItem (c : CMsg) : AncillaryItem :=
  if c.cmsg_level = SOL_SOCKET ∧ c.cmsg_type = SCM_RIGHTS then
    AncillaryItem.Fds (decodeFds ((c.cmsg_len - CMSG_LEN 0) / sizeofRawFd) c.payload)
  else if c.cmsg_level = SOL_SOCKET ∧ c.cmsg_type = SCM_CREDENTIALS then
    AncillaryItem.Credentials (decodeCreds c.payload)
  else AncillaryItem.Unsupported

/-- The `Ancillary` iterator: `remaining` is the chain of control blocks from
`next_message` to the end of the buffer; the empty list models a null
`next_message`. -/
structure Ancillary where
  remaining : List CMsg
deriving DecidableEq, Repr

/-- Model of `Ancillary::next` (src/ancillary.rs lines 278-304): `None` and no
state change when `next_message` is null, else the decoded block and the
`CMSG_NXTHDR` advance. -/
def Ancillary.next : Ancillary → Option AncillaryItem × Ancillary
  | ⟨[]⟩ => (none, ⟨[]⟩)
  | ⟨c :: rest⟩ => (some (decodeItem c), ⟨rest⟩)

/-- Descriptor list of an item, empty for non-`Fds` items. -/
def fdsOfItem : AncillaryItem → List Int
  | AncillaryItem.Fds fds => fds
  | _ => []

/-- The descriptors `Drop for Ancillary` closes (src/ancillary.rs lines
306-317): the loop repeatedly calls `next` and closes every descriptor of
every `Fds` item, in order. -/
def drainClose : List CMsg → List Int
  | [] => []
  | c :: rest => fdsOfItem (decodeItem c) ++ drainClose rest

/-- Caller-driven iteration: `n` calls of `next`, returning the items yielded
and the blocks still unconsumed. -/
def iterN : List CMsg → Nat → List AncillaryItem × List CMsg
  | bs, 0 => ([], bs)
  | [], _ + 1 => ([], [])
  | c :: rest, n + 1 =>
    let r := iterN rest n
    (decodeItem c :: r.1, r.2)

/-! ## Bounded FD receive (`recv_fds`) -/

/-- The drain loop of `recv_fds` (src/ancillary.rs lines 386-400) with `cap`
remaining slots in the caller's array: per `Fds` item it keeps
`can_keep = min(fds.len(), remaining capacity)` descriptors in order and
closes the rest. Returns (descriptors kept, descriptors closed). -/
def recvFdsLoop : List AncillaryItem → Nat → List Int × List Int
  | [], _ => ([], [])
  | AncillaryItem.Fds fds :: rest, cap =>
    let canKeep := min fds.length cap
    let r := recvFdsLoop rest (cap - canKeep)
    (fds.take canKeep ++ r.1, fds.drop canKeep ++ r.2)
  | _ :: rest, cap => recvFdsLoop rest cap

/-- All descriptors delivered across the decoded messages, in order. -/
def allFds (msgs : List AncillaryItem) : List Int := msgs.flatMap fdsOfItem

/-- Model of `recv_fds` after a successful receive of `numBytes` payload bytes
and control blocks `blocks`, with a caller array of capacity `m`: it drains
the iterator and returns the byte count together with the number of
descriptors kept. -/
def recv_fds (numBytes : Nat) (blocks : List CMsg) (m : Nat) : Nat × Nat :=
  (numBytes, (recvFdsLoop (blocks.map decodeItem) m).1.length)

/-! ## Theorems -/

/-- C1: the claim that `send_ancillary` computes a control-buffer capacity
exactly matching the space the encoded blocks require fails on the code: the
capacity term for the descriptor block is `CMSG_LEN(size_of_val(&fds))`, the
size of the 16-byte slice reference, not of the descriptor payload. With 5
descriptors and no credentials, the computed capacity is 32 bytes while the
single written block is declared and written as `CMSG_LEN 20 = 36` bytes,
overflowing the buffer; with 1 descriptor (the canonical single-block case)
the capacity is still 32 bytes while the block needs only 20, leaving 12
unused bytes. The exact requirement the spec states is `specRequiredCapacity`. -/
theorem send_capacity_mismatch :
    send_ancillary false 5 0 =
      Except.ok ⟨32, MSG_NOSIGNAL, none, some (0, 36)⟩ ∧
    SendCall.writeEnd ⟨32, MSG_NOSIGNAL, none, some (0, 36)⟩ = 36 ∧
    specRequiredCapacity false 5 = 36 ∧
    send_ancillary false 1 0 =
      Except.ok ⟨32, MSG_NOSIGNAL, none, some (0, 20)⟩ ∧
    specRequiredCapacity false 1 = 20 :=
  ⟨rfl, rfl, rfl, rfl, rfl⟩

/-- C4: more file descriptors than the conservative `0xff_ff_ff` threshold
make `send_ancillary` return the distinct input-validation error before any
control buffer is encoded or any syscall issued (the model's `Except.ok`
carries the encoded blocks and the syscall setup, so an `Except.error` means
neither happened). -/
theorem send_too_many_fds_rejected (hasCreds : Bool) (numFds flags : Nat)
    (h : numFds > 0xffffff) :
    send_ancillary hasCreds numFds flags
      = Except.error SendError.tooManyFileDescriptors := by
  have h0 : numFds > 0 := lt_trans (by norm_num) h
  simp [send_ancillary, h, h0]

/-- Witness for C4 at 0x1000000 descriptors. -/
theorem send_too_many_fds_rejected_witness :
    send_ancillary false 0x1000000 0
      = Except.error SendError.tooManyFileDescriptors :=
  send_too_many_fds_rejected false 0x1000000 0 (by decide)

/-- C5 counterexample: a zero-length ancillary buffer at the misaligned
address 1 is accepted by `recv_ancillary` rather than rejected, because both
validation checks sit inside the `ancillary_buf.len() > 0` branch; the claim
as stated (every call with a misaligned buffer errors) is therefore false. -/
theorem zero_len_misaligned_buffer_accepted :
    1 % alignCmsghdr ≠ 0 ∧
    recv_ancillary 1 0 0
      = Except.ok ⟨true, 0, 0 ||| MSG_NOSIGNAL ||| MSG_CMSG_CLOEXEC⟩ :=
  ⟨by decide, rfl⟩

/-- C5 amended: for every call whose ancillary buffer is nonempty and either
starts at an address not satisfying `align_of::<cmsghdr>()` or has a length
exceeding `ControlLen::max_value()`, `recv_ancillary` returns an
input-validation error before the receive syscall is invoked. -/
theorem nonempty_invalid_ancillary_buf_rejected (bufAddr bufLen flags : Nat)
    (hlen : 0 < bufLen)
    (hbad : bufAddr % alignCmsghdr ≠ 0 ∨ ControlLenMax < bufLen) :
    isErr (recv_ancillary bufAddr bufLen flags) = true := by
  rcases hbad with hb | hb
  · simp [recv_ancillary, hlen, hb, isErr]
  · by_cases ha : bufAddr % alignCmsghdr = 0
    · simp [recv_ancillary, hlen, ha, hb, Nat.not_le.mpr hb, isErr]
    · simp [recv_ancillary, hlen, ha, isErr]

/-- Witness for the amended C5: a one-byte buffer at misaligned address 1. -/
theorem nonempty_invalid_ancillary_buf_rejected_witness :
    isErr (recv_ancillary 1 1 0) = true :=
  nonempty_invalid_ancillary_buf_rejected 1 1 0 (by decide) (Or.inl (by decide))

/-- C6: for every `bytes` within the representable maximum,
`AncillaryBuf::with_capacity(bytes)` succeeds, dereferences to exactly
`bytes` bytes, is backed by the embedded region with no heap allocation when
`bytes ≤ 256` (in particular for `bytes = 0`), is backed by a fresh
`cmsghdr`-aligned heap allocation otherwise, and `Drop` deallocates exactly
the construction-time layout — so exactly once, and only in the heap case. -/
theorem with_capacity_spec (bytes : Nat) (h : bytes ≤ MAX_CAPACITY) :
    ∃ b : AncillaryBuf, with_capacity bytes = some b ∧
      b.derefLen = bytes ∧
      (bytes ≤ MAX_STACK_CAPACITY →
        b.heapLayout = none ∧ b.derefUsesStack = true ∧ b.dropDealloc = none) ∧
      (MAX_STACK_CAPACITY < bytes →
        b.heapLayout = some (bytes, alignCmsghdr) ∧ b.derefUsesStack = false ∧
        b.dropDealloc = some (bytes, alignCmsghdr)) ∧
      b.dropDealloc = b.heapLayout := by
  by_cases hs : bytes ≤ MAX_STACK_CAPACITY
  · refine ⟨⟨bytes, none⟩, ?_, rfl, ?_, ?_, ?_⟩
    · simp [with_capacity, hs]
    · exact fun _ => ⟨rfl, by simp [AncillaryBuf.derefUsesStack, hs],
        by simp [AncillaryBuf.dropDealloc, Nat.not_lt.mpr hs]⟩
    · intro hlt; exact absurd hs (Nat.not_le.mpr hlt)
    · simp [AncillaryBuf.dropDealloc, Nat.not_lt.mpr hs]
  · have hlt : MAX_STACK_CAPACITY < bytes := Nat.not_le.mp hs
    refine ⟨⟨bytes, some (bytes, alignCmsghdr)⟩, ?_, rfl, ?_, ?_, ?_⟩
    · simp [with_capacity, hs, h]
    · intro hle; exact absurd hle hs
    · exact fun _ => ⟨rfl, by simp [AncillaryBuf.derefUsesStack, hs],
        by simp [AncillaryBuf.dropDealloc, hlt]⟩
    · simp [AncillaryBuf.dropDealloc, hlt]

/-- Witness for C6 at the zero-byte edge case: no allocation, empty range. -/
theorem with_capacity_spec_witness :
    ∃ b : AncillaryBuf, with_capacity 0 = some b ∧
      b.derefLen = 0 ∧
      ((0 : Nat) ≤ MAX_STACK_CAPACITY →
        b.heapLayout = none ∧ b.derefUsesStack = true ∧ b.dropDealloc = none) ∧
      (MAX_STACK_CAPACITY < 0 →
        b.heapLayout = some (0, alignCmsghdr) ∧ b.derefUsesStack = false ∧
        b.dropDealloc = some (0, alignCmsghdr)) ∧
      b.dropDealloc = b.heapLayout :=
  with_capacity_spec 0 (by decide)

/-- C8: every `recvmsg` call issued by `recv_ancillary` receives the caller's
flags with `MSG_NOSIGNAL` and `MSG_CMSG_CLOEXEC` added, and every `sendmsg`
call issued by `send_ancillary` receives the caller's flags with
`MSG_NOSIGNAL` added. -/
theorem pass_flags_add_nosignal_cloexec :
    (∀ (bufAddr bufLen flags : Nat) (c : RecvCall),
       recv_ancillary bufAddr bufLen flags = Except.ok c →
       c.passFlags = flags ||| MSG_NOSIGNAL ||| MSG_CMSG_CLOEXEC) ∧
    (∀ (hasCreds : Bool) (numFds flags : Nat) (c : SendCall),
       send_ancillary hasCreds numFds flags = Except.ok c →
       c.passFlags = flags ||| MSG_NOSIGNAL) := by
  constructor
  · intro bufAddr bufLen flags c h
    unfold recv_ancillary at h
    split at h
    · split at h
      · exact absurd h (by simp)
      · split at h
        · exact absurd h (by simp)
        · cases h; rfl
    · cases h; rfl
  · intro hasCreds numFds flags c h
    by_cases h0 : numFds > 0
    · by_cases h1 : numFds > 0xffffff
      · simp [send_ancillary, h0, h1] at h
      · simp [send_ancillary, h0, h1] at h
        rw [← h]
    · simp [send_ancillary, h0] at h
      rw [← h]

/-- Witness for C8 at concrete calls: receive with caller flags 2, send with
caller flags 5 and no ancillary payload. -/
theorem pass_flags_add_nosignal_cloexec_witness :
    RecvCall.passFlags ⟨false, 8, 2 ||| MSG_NOSIGNAL ||| MSG_CMSG_CLOEXEC⟩
      = 2 ||| MSG_NOSIGNAL ||| MSG_CMSG_CLOEXEC ∧
    SendCall.passFlags ⟨0, 5 ||| MSG_NOSIGNAL, none, none⟩
      = 5 ||| MSG_NOSIGNAL :=
  ⟨pass_flags_add_nosignal_cloexec.1 8 8 2 _ rfl,
   pass_flags_add_nosignal_cloexec.2 false 0 5 _ rfl⟩

/-- C9: a zero-length ancillary buffer makes `recv_ancillary` skip both the
alignment check and the length check — whatever its address, even one that
violates `cmsghdr` alignment — and issue the receive with a null
`msg_control` and zero `msg_controllen`. -/
theorem zero_len_ancillary_buf_skips_checks (bufAddr flags : Nat) :
    recv_ancillary bufAddr 0 flags
      = Except.ok ⟨true, 0, flags ||| MSG_NOSIGNAL ||| MSG_CMSG_CLOEXEC⟩ := by
  simp [recv_ancillary]

/-! ## Helper lemmas about the iterator -/

theorem decodeFds_length (n : Nat) (bytes : List Nat)
    (h : sizeofRawFd * n ≤ bytes.length) : (decodeFds n bytes).length = n := by
  induction n generalizing bytes with
  | zero => rfl
  | succ k ih =>
    match bytes with
    | [] | [_] | [_, _] | [_, _, _] =>
      simp [sizeofRawFd, List.length] at h <;> omega
    | b0 :: b1 :: b2 :: b3 :: rest =>
      have hrest : sizeofRawFd * k ≤ rest.length := by
        simp [sizeofRawFd, List.length] at h ⊢
        omega
      simp [decodeFds, ih rest hrest]

theorem iterN_eq (blocks : List CMsg) (n : Nat) :
    iterN blocks n = ((blocks.take n).map decodeItem, blocks.drop n) := by
  induction blocks generalizing n with
  | nil => cases n <;> simp [iterN]
  | cons c rest ih =>
    cases n with
    | zero => simp [iterN]
    | succ k => simp [iterN, ih]

theorem drainClose_count (l : List CMsg) (fd : Int) :
    (drainClose l).count fd
      = (l.map fun c => (fdsOfItem (decodeItem c)).count fd).sum := by
  induction l with
  | nil => simp [drainClose]
  | cons c rest ih => simp [drainClose, List.count_append, ih]

theorem mem_drainClose (l : List CMsg) (c : CMsg) (hc : c ∈ l) (fd : Int)
    (hfd : fd ∈ fdsOfItem (decodeItem c)) : fd ∈ drainClose l := by
  induction l with
  | nil => cases hc
  | cons d rest ih =>
    rcases List.mem_cons.mp hc with h | h
    · subst h
      exact List.mem_append.mpr (Or.inl hfd)
    · exact List.mem_append.mpr (Or.inr (ih h))

theorem take_min_length {α : Type} (l : List α) (m : Nat) :
    l.take (min l.length m) = l.take m := by
  rcases Nat.le_total l.length m with h | h
  · rw [Nat.min_eq_left h, List.take_length, List.take_of_length_le h]
  · rw [Nat.min_eq_right h]

theorem drop_min_length {α : Type} (l : List α) (m : Nat) :
    l.drop (min l.length m) = l.drop m := by
  rcases Nat.le_total l.length m with h | h
  · rw [Nat.min_eq_left h, List.drop_length, Eq.comm, List.drop_eq_nil_iff]
    exact h
  · rw [Nat.min_eq_right h]

theorem allFds_cons (item : AncillaryItem) (rest : List AncillaryItem) :
    allFds (item :: rest) = fdsOfItem item ++ allFds rest := by
  cases item <;> simp [allFds, fdsOfItem]

theorem recvFdsLoop_eq (msgs : List AncillaryItem) (m : Nat) :
    recvFdsLoop msgs m = ((allFds msgs).take m, (allFds msgs).drop m) := by
  induction msgs generalizing m with
  | nil => simp [recvFdsLoop, allFds]
  | cons item rest ih =>
    cases item with
    | Fds fds =>
      have hsub : m - min fds.length m = m - fds.length := by omega
      simp only [recvFdsLoop, ih, allFds_cons, fdsOfItem]
      rw [List.take_append_eq_append_take, List.drop_append_eq_append_drop,
        take_min_length, drop_min_length, hsub]
    | Credentials creds => simp [recvFdsLoop, ih, allFds_cons, fdsOfItem]
    | Unsupported => simp [recvFdsLoop, ih, allFds_cons, fdsOfItem]

/-! ## Theorems about the decoder and the bounded receive -/

/-- C2: when an `Ancillary` iterator is dropped after the caller consumed any
number `n` of items, the blocks not yet yielded are exactly the trailing
`blocks.drop n`, and the drop-time drain closes precisely the descriptors of
the remaining file-descriptor-set blocks: every such descriptor is closed, and
each one exactly once per occurrence (its close count equals its total count
across the remaining blocks). -/
theorem drop_closes_remaining_fds_exactly_once (blocks : List CMsg) (n : Nat) :
    (iterN blocks n).2 = blocks.drop n ∧
    (∀ fd : Int, (drainClose (blocks.drop n)).count fd
      = ((blocks.drop n).map fun c => (fdsOfItem (decodeItem c)).count fd).sum) ∧
    (∀ c ∈ blocks.drop n, ∀ fd ∈ fdsOfItem (decodeItem c),
      fd ∈ drainClose (blocks.drop n)) := by
  refine ⟨?_, fun fd => drainClose_count _ fd, fun c hc fd hfd => mem_drainClose _ c hc fd hfd⟩
  rw [iterN_eq]

/-- Witness for C2: a single remaining `SCM_RIGHTS` block carrying descriptor
7 twice; the drain closes 7 exactly twice, and 7 is closed. -/
theorem drop_closes_remaining_fds_witness :
    (drainClose [⟨24, 1, 1, [7, 0, 0, 0, 7, 0, 0, 0]⟩]).count 7
      = (([⟨24, 1, 1, [7, 0, 0, 0, 7, 0, 0, 0]⟩] : List CMsg).map
          fun c => (fdsOfItem (decodeItem c)).count 7).sum ∧
    (7 : Int) ∈ drainClose [⟨24, 1, 1, [7, 0, 0, 0, 7, 0, 0, 0]⟩] := by
  have h := drop_closes_remaining_fds_exactly_once
    [⟨24, 1, 1, [7, 0, 0, 0, 7, 0, 0, 0]⟩] 0
  exact ⟨h.2.1 7, h.2.2 ⟨24, 1, 1, [7, 0, 0, 0, 7, 0, 0, 0]⟩ (by simp) 7 (by decide)⟩

/-- C3: the drain loop of `recv_fds` keeps exactly the first
`min(k, m)` of the `k` delivered descriptors, in delivery order (at most the
remaining capacity per file-descriptor-set item), closes exactly the rest,
and `recv_fds` returns the payload byte count together with the number kept. -/
theorem recv_fds_keeps_min_and_closes_rest :
    (∀ (msgs : List AncillaryItem) (m : Nat),
       recvFdsLoop msgs m = ((allFds msgs).take m, (allFds msgs).drop m)) ∧
    (∀ (numBytes : Nat) (blocks : List CMsg) (m : Nat),
       recv_fds numBytes blocks m
         = (numBytes, min (allFds (blocks.map decodeItem)).length m)) := by
  refine ⟨recvFdsLoop_eq, fun numBytes blocks m => ?_⟩
  simp [recv_fds, recvFdsLoop_eq, Nat.min_comm]

/-- C7: a control block tagged `(SOL_SOCKET, SCM_RIGHTS)` is decoded as a
file-descriptor-set item exposing exactly
`payload_bytes / size_of::<RawFd>()` descriptor values read from the block's
data region in the control buffer, and a block with any unrecognized
level/type pair is decoded as `Unsupported` with its payload uninterpreted. -/
theorem scm_rights_and_unsupported_decoding (c : CMsg)
    (hpay : sizeofRawFd * ((c.cmsg_len - CMSG_LEN 0) / sizeofRawFd)
      ≤ c.payload.length) :
    (c.cmsg_level = SOL_SOCKET → c.cmsg_type = SCM_RIGHTS →
      decodeItem c = AncillaryItem.Fds
        (decodeFds ((c.cmsg_len - CMSG_LEN 0) / sizeofRawFd) c.payload) ∧
      (decodeFds ((c.cmsg_len - CMSG_LEN 0) / sizeofRawFd) c.payload).length
        = (c.cmsg_len - CMSG_LEN 0) / sizeofRawFd) ∧
    (¬(c.cmsg_level = SOL_SOCKET ∧ c.cmsg_type = SCM_RIGHTS) →
     ¬(c.cmsg_level = SOL_SOCKET ∧ c.cmsg_type = SCM_CREDENTIALS) →
      decodeItem c = AncillaryItem.Unsupported) := by
  constructor
  · intro hl ht
    refine ⟨by simp [decodeItem, hl, ht], ?_⟩
    exact decodeFds_length _ _ hpay
  · intro h1 h2
    simp [decodeItem, h1, h2]

/-- Witness for C7: a 24-byte `(SOL_SOCKET, SCM_RIGHTS)` block decodes to the
two descriptors 1 and 2; a `(SOL_SOCKET, 3)` block decodes to `Unsupported`. -/
theorem scm_rights_and_unsupported_decoding_witness :
    decodeItem ⟨24, 1, 1, [1, 0, 0, 0, 2, 0, 0, 0]⟩
      = AncillaryItem.Fds (decodeFds 2 [1, 0, 0, 0, 2, 0, 0, 0]) ∧
    (decodeFds 2 [1, 0, 0, 0, 2, 0, 0, 0]).length = 2 ∧
    decodeItem ⟨16, 1, 3, []⟩ = AncillaryItem.Unsupported := by
  have h := scm_rights_and_unsupported_decoding
    ⟨24, 1, 1, [1, 0, 0, 0, 2, 0, 0, 0]⟩ (by decide)
  have h2 := scm_rights_and_unsupported_decoding ⟨16, 1, 3, []⟩ (by decide)
  exact ⟨(h.1 rfl rfl).1, (h.1 rfl rfl).2, h2.2 (by decide) (by decide)⟩

/-- C10: the `Ancillary` iterator is fused — whenever `next` returns `None`
(null `next_message`) the state is unchanged and every later call returns
`None` — and `n` caller-driven calls of `next` yield exactly the decoded
first `n` blocks while leaving exactly the trailing blocks for the drop-time
drain, so that `take n ++ drop n = blocks`: each block is yielded at most
once across iteration and drop, and descriptors already handed to the caller
are never among the drop-closed remainder. -/
theorem iterator_fused_and_blocks_partition :
    (∀ it itNext : Ancillary, Ancillary.next it = (none, itNext) →
      Ancillary.next itNext = (none, itNext)) ∧
    (∀ (blocks : List CMsg) (n : Nat),
      iterN blocks n = ((blocks.take n).map decodeItem, blocks.drop n) ∧
      blocks.take n ++ blocks.drop n = blocks ∧
      drainClose ((iterN blocks n).2) = drainClose (blocks.drop n)) := by
  constructor
  · intro it itNext h
    match it with
    | ⟨[]⟩ =>
      have : itNext = ⟨[]⟩ := congrArg Prod.snd h |>.symm
      rw [this]
      rfl
    | ⟨c :: rest⟩ => simp [Ancillary.next] at h
  · intro blocks n
    exact ⟨iterN_eq blocks n, List.take_append_drop n blocks,
      by rw [iterN_eq]⟩

/-- Witness for C10: calling `next` on an exhausted iterator returns `None`
and leaves it exhausted; one call on a two-block chain yields the first
decoded block and leaves the second. -/
theorem iterator_fused_witness :
    Ancillary.next (⟨[]⟩ : Ancillary) = (none, (⟨[]⟩ : Ancillary)) ∧
    iterN [⟨24, 1, 1, [1, 0, 0, 0, 2, 0, 0, 0]⟩, ⟨16, 1, 3, []⟩] 1
      = ([AncillaryItem.Fds [1, 2]], [⟨16, 1, 3, []⟩]) := by
  constructor
  · exact iterator_fused_and_blocks_partition.1 ⟨[]⟩ ⟨[]⟩ rfl
  · have h := (iterator_fused_and_blocks_partition.2
      [⟨24, 1, 1, [1, 0, 0, 0, 2, 0, 0, 0]⟩, ⟨16, 1, 3, []⟩] 1).1
    rw [h]
    decide

end Uds
